import Mathlib

/-!
Verification of the data-reshaping core of the Kosis export scripts
(`runner.py` and the legacy `trash/kosis_batch_export.py`).

The Python values flowing through the pipeline (parsed JSON documents and
pandas cells) are modelled by the inductive type `Value`: maps, sequences
and scalar leaves (string, rational number, boolean, null).  `Value.null`
stands both for JSON `null`/Python `None` and for a pandas `NaN` cell.
Numbers are modelled as rationals; the exact `repr` of non-integral Python
floats is not needed by any claim and `pyStr` renders only integral
numbers exactly.
-/

inductive Value where
  | null : Value
  | b (bo : Bool) : Value
  | num (q : ℚ) : Value
  | s (str : String) : Value
  | list (items : List Value) : Value
  | dict (fields : List (String × Value)) : Value
  deriving Repr

mutual

def Value.beq : Value → Value → Bool
  | .null, .null => true
  | .b x, .b y => x == y
  | .num x, .num y => x == y
  | .s x, .s y => x == y
  | .list xs, .list ys => Value.beqList xs ys
  | .dict xs, .dict ys => Value.beqFields xs ys
  | _, _ => false

def Value.beqList : List Value → List Value → Bool
  | [], [] => true
  | x :: xs, y :: ys => Value.beq x y && Value.beqList xs ys
  | _, _ => false

def Value.beqFields : List (String × Value) → List (String × Value) → Bool
  | [], [] => true
  | (k, x) :: xs, (l, y) :: ys => k == l && Value.beq x y && Value.beqFields xs ys
  | _, _ => false

end

instance : BEq Value := ⟨Value.beq⟩

mutual

theorem Value.beq_refl : ∀ a : Value, Value.beq a a = true
  | .null => rfl
  | .b x => by simp [Value.beq]
  | .num x => by simp [Value.beq]
  | .s x => by simp [Value.beq]
  | .list xs => Value.beqList_refl xs
  | .dict xs => Value.beqFields_refl xs

theorem Value.beqList_refl : ∀ xs : List Value, Value.beqList xs xs = true
  | [] => rfl
  | x :: xs => by
    simp only [Value.beqList, Bool.and_eq_true]
    exact ⟨Value.beq_refl x, Value.beqList_refl xs⟩

theorem Value.beqFields_refl : ∀ xs : List (String × Value), Value.beqFields xs xs = true
  | [] => rfl
  | (k, x) :: xs => by
    simp only [Value.beqFields, Bool.and_eq_true]
    exact ⟨⟨by simp, Value.beq_refl x⟩, Value.beqFields_refl xs⟩

end

mutual

theorem Value.beq_sound : ∀ a b : Value, Value.beq a b = true → a = b
  | .null, .null, _ => rfl
  | .b x, .b y, h => by
    simp only [Value.beq, beq_iff_eq] at h; rw [h]
  | .num x, .num y, h => by
    simp only [Value.beq, beq_iff_eq] at h; rw [h]
  | .s x, .s y, h => by
    simp only [Value.beq, beq_iff_eq] at h; rw [h]
  | .list xs, .list ys, h => by
    rw [Value.beqList_sound xs ys h]
  | .dict xs, .dict ys, h => by
    rw [Value.beqFields_sound xs ys h]
  | .null, .b _, h | .null, .num _, h | .null, .s _, h | .null, .list _, h
  | .null, .dict _, h => nomatch h
  | .b _, .null, h | .b _, .num _, h | .b _, .s _, h | .b _, .list _, h
  | .b _, .dict _, h => nomatch h
  | .num _, .null, h | .num _, .b _, h | .num _, .s _, h | .num _, .list _, h
  | .num _, .dict _, h => nomatch h
  | .s _, .null, h | .s _, .b _, h | .s _, .num _, h | .s _, .list _, h
  | .s _, .dict _, h => nomatch h
  | .list _, .null, h | .list _, .b _, h | .list _, .num _, h | .list _, .s _, h
  | .list _, .dict _, h => nomatch h
  | .dict _, .null, h | .dict _, .b _, h | .dict _, .num _, h | .dict _, .s _, h
  | .dict _, .list _, h => nomatch h

theorem Value.beqList_sound : ∀ xs ys : List Value, Value.beqList xs ys = true → xs = ys
  | [], [], _ => rfl
  | x :: xs, y :: ys, h => by
    simp only [Value.beqList, Bool.and_eq_true] at h
    rw [Value.beq_sound x y h.1, Value.beqList_sound xs ys h.2]
  | [], _ :: _, h => nomatch h
  | _ :: _, [], h => nomatch h

theorem Value.beqFields_sound :
    ∀ xs ys : List (String × Value), Value.beqFields xs ys = true → xs = ys
  | [], [], _ => rfl
  | (k, x) :: xs, (l, y) :: ys, h => by
    simp only [Value.beqFields, Bool.and_eq_true, beq_iff_eq] at h
    rw [h.1.1, Value.beq_sound x y h.1.2, Value.beqFields_sound xs ys h.2]
  | [], _ :: _, h => nomatch h
  | _ :: _, [], h => nomatch h

end

instance : DecidableEq Value := fun a b =>
  if h : Value.beq a b = true then isTrue (Value.beq_sound a b h)
  else isFalse (fun he => h (he ▸ Value.beq_refl a))

instance : LawfulBEq Value where
  eq_of_beq h := Value.beq_sound _ _ h
  rfl := Value.beq_refl _

namespace Value

def isDict : Value → Bool
  | .dict _ => true
  | _ => false

def isList : Value → Bool
  | .list _ => true
  | _ => false

/-- A scalar leaf other than null. -/
def isScalar : Value → Bool
  | .b _ => true
  | .num _ => true
  | .s _ => true
  | _ => false

def asList : Value → List Value
  | .list xs => xs
  | _ => []

def asStr : Value → String
  | .s str => str
  | _ => ""

def fieldsOf : Value → List (String × Value)
  | .dict fs => fs
  | _ => []

end Value

/-- A representative subset of CPython's non-decimal digit characters
(Numeric_Type=Digit): the superscript and subscript digits.  `str.isdigit`
accepts them but `int()` rejects them, which is what lets `deep_get`'s
isdigit-guarded `int(part)` raise.  CPython classes a few further
characters the same way (e.g. circled digits); they behave exactly like
'²' and are not separately modelled, and non-ASCII decimal digits (which
`int()` accepts) are not modelled either — no claim depends on those. -/
def pyIsOtherDigit (c : Char) : Bool :=
  c = '¹' || c = '²' || c = '³' || c.toNat = 0x2070
  || (0x2074 ≤ c.toNat && c.toNat ≤ 0x2079)
  || (0x2080 ≤ c.toNat && c.toNat ≤ 0x2089)

/-- Python `part.isdigit()` (runner.py line 43): true on a non-empty string
of digit characters — the decimal digits together with the non-decimal
digit class above. -/
def pyIsdigit (s : String) : Bool :=
  !s.isEmpty && s.toList.all (fun c => c.isDigit || pyIsOtherDigit c)

/-- Python `str.isdecimal`: the strings `int()` accepts among the
isdigit-true ones (a non-empty run of decimal digits). -/
def pyIsdecimal (s : String) : Bool :=
  !s.isEmpty && s.toList.all Char.isDigit

/-- The value of a decimal-digit string. -/
def pyInt (s : String) : Nat :=
  s.toList.foldl (fun n c => n * 10 + (c.toNat - ('0').toNat)) 0

/-- Python `int(part)` as `deep_get` calls it (guarded by
`part.isdigit()`): succeeds exactly on decimal-digit strings; an
isdigit-true string holding a non-decimal digit character such as '²'
raises `ValueError`. -/
def pyIntE (s : String) : Except String Nat :=
  if pyIsdecimal s then .ok (pyInt s) else .error "ValueError"

/-- Split a character list on the dots it holds (keeping empty groups). -/
def splitDotChars : List Char → List (List Char)
  | [] => [[]]
  | c :: rest =>
    if c = '.' then [] :: splitDotChars rest
    else
      match splitDotChars rest with
      | g :: gs => (c :: g) :: gs
      | [] => [[c]]

/-- Python `path.split(".")`: every dot splits, empty segments are kept. -/
def splitPath (path : String) : List String :=
  (splitDotChars path.toList).map (fun cs => String.mk cs)

/-- Python list subscription `cur[idx]`: raises `IndexError` when out of
bounds.  `deep_get` only calls it under a bounds guard; modelling the raise
explicitly lets the totality theorem show the guard is sufficient. -/
def listIndex (xs : List Value) (i : Nat) : Except String Value :=
  if h : i < xs.length then .ok (xs.get ⟨i, h⟩) else .error "IndexError"

/-- The loop body of `deep_get` (runner.py lines 36-51), one step per path
segment.  Result `.ok .null` models the Python function returning `None`;
an `.error` would model an uncaught exception. -/
def deep_get_go : Value → List String → Except String Value
  | cur, [] => .ok cur
  | cur, part :: rest =>
    match cur with
    | .null => .ok .null
    | .dict fs => deep_get_go ((fs.lookup part).getD .null) rest
    | .list xs =>
      if pyIsdigit part then
        (pyIntE part).bind fun idx =>
          if idx < xs.length then
            (listIndex xs idx).bind fun x => deep_get_go x rest
          else
            deep_get_go .null rest
      else
        .ok .null
    | .b _ | .num _ | .s _ => .ok .null

/-- `deep_get(obj, path)` from runner.py lines 28-52: dotted-path access
into nested dicts/lists.  The empty path returns the object unchanged;
otherwise the path is split on every dot (empty segments included, as in
Python's `str.split`). -/
def deep_get (obj : Value) (path : String) : Except String Value :=
  if path = "" then .ok obj else deep_get_go obj (splitPath path)

/-- `normalize_to_list` from runner.py lines 55-60. -/
def normalize_to_list (x : Value) : List Value :=
  match x with
  | .null => []
  | .list xs => xs
  | v => [v]

theorem deep_get_go_null (parts : List String) :
    deep_get_go .null parts = .ok .null := by
  cases parts <;> rfl

theorem pyIsdigit_of_decimal (s : String) (h : pyIsdecimal s = true) :
    pyIsdigit s = true := by
  simp only [pyIsdecimal, pyIsdigit, Bool.and_eq_true, List.all_eq_true] at h ⊢
  exact ⟨h.1, fun c hc => by simp [h.2 c hc]⟩

/-- Resolution is total on the paths whose isdigit-true segments are all
decimal — for any other segment met at a list node, `int(part)` raises. -/
theorem deep_get_go_total (parts : List String)
    (hsafe : ∀ part ∈ parts, pyIsdigit part = true → pyIsdecimal part = true) :
    ∀ cur, ∃ v, deep_get_go cur parts = .ok v := by
  induction parts with
  | nil => intro cur; exact ⟨cur, rfl⟩
  | cons part rest ih =>
    have ihr := ih (fun p hp => hsafe p (List.mem_cons_of_mem _ hp))
    intro cur
    cases cur with
    | null => exact ⟨.null, rfl⟩
    | b bo => exact ⟨.null, rfl⟩
    | num q => exact ⟨.null, rfl⟩
    | s str => exact ⟨.null, rfl⟩
    | dict fs => exact ihr _
    | list xs =>
      by_cases hd : pyIsdigit part
      · have hdec : pyIsdecimal part = true := hsafe part (List.mem_cons_self _ _) hd
        by_cases hlt : pyInt part < xs.length
        · obtain ⟨v, hv⟩ := ihr (xs.get ⟨pyInt part, hlt⟩)
          rw [List.get_eq_getElem] at hv
          refine ⟨v, ?_⟩
          simp [deep_get_go, hd, hdec, pyIntE, hlt, listIndex, Except.bind, hv]
        · obtain ⟨v, hv⟩ := ihr Value.null
          refine ⟨v, ?_⟩
          simp [deep_get_go, hd, hdec, pyIntE, hlt, hv, Except.bind]
      · exact ⟨.null, by simp [deep_get_go, hd]⟩

/-!
## Tables

A pandas `DataFrame` is modelled as a column-name list plus one
association-list row per record.  Every row built by the constructors below
carries exactly the table's columns, in order; a missing cell is
`Value.null` (pandas `NaN`).
-/

/-- One row of a rectangular table: column name to cell value. -/
abbrev Row := List (String × Value)

structure Table where
  cols : List String
  rows : List Row
  deriving Repr, DecidableEq

/-- Cell access in a row; an absent column name reads as null (pandas NaN). -/
def getCellA (r : Row) (k : String) : Value :=
  (r.lookup k).getD .null

inductive JobError where
  /-- Zero records: run_kosis_job line 208 / run_data_go_kr_job line 272. -/
  | emptyInput : JobError
  /-- `pd.DataFrame(items)` on a list that mixes maps and non-maps: pandas
  takes the list-of-dicts path from `items[0]` and fails on the first
  non-map element. -/
  | frameError : JobError
  deriving Repr, DecidableEq

/-- The keys of a list of dicts, in first-seen order (the column set
`pd.DataFrame(list_of_dicts)` produces). -/
def unionKeys (items : List Value) : List String :=
  items.foldl (fun acc it =>
    acc ++ ((it.fieldsOf.map Prod.fst).eraseDups.filter (fun k => !acc.contains k))) []

/-- `pd.DataFrame(items)` for a list of dicts: columns are the union of the
keys in first-seen order; a record missing a key gets a null cell. -/
def directTable (items : List Value) : Table :=
  let cs := unionKeys items
  { cols := cs,
    rows := items.map (fun it => cs.map (fun c => (c, (it.fieldsOf.lookup c).getD .null))) }

/-- `pd.DataFrame(items)` for a list of non-dict scalars: a single column
(pandas labels it with the integer 0, rendered here as a string). -/
def scalarFrame (items : List Value) : Table :=
  { cols := ["0"], rows := items.map (fun v => [("0", v)]) }

/-- `pd.DataFrame({"value": items})` (runner.py line 280). -/
def wrapTable (items : List Value) : Table :=
  { cols := ["value"], rows := items.map (fun v => [("value", v)]) }

/-- `pd.DataFrame(data)` on a plain Python list.  Pandas decides the layout
from the first element: a mapping there selects the list-of-dicts path,
which then reads `.keys()` off every element and raises on a non-mapping.
Mixed lists whose first element is not a mapping fall through to the
single-column scalar layout (dict cells stay object cells). -/
def pdDataFrame (data : List Value) : Except JobError Table :=
  match data with
  | [] => .ok { cols := [], rows := [] }
  | first :: _ =>
    if first.isDict then
      if data.all Value.isDict then .ok (directTable data) else .error .frameError
    else .ok (scalarFrame data)

/-- Record normalization of the data.go.kr item list (runner.py lines
271-280): zero items is a hard error; otherwise `items[0]` decides between
the list-of-dicts frame and wrapping the whole list under `"value"`. -/
def toTable (items : List Value) : Except JobError Table :=
  match items with
  | [] => .error .emptyInput
  | first :: _ =>
    if first.isDict then pdDataFrame items
    else .ok (wrapTable items)

/-- The KOSIS path (runner.py lines 206-209): `pd.DataFrame(data)` followed
by the `df.empty` guard (`empty` is true when either axis has length 0). -/
def kosis_table (data : List Value) : Except JobError Table := do
  let t ← pdDataFrame data
  if t.rows.isEmpty || t.cols.isEmpty then .error .emptyInput else .ok t

/-!
## Cell coercions
-/

/-- Decimal digit run to a natural number. -/
def digitsVal (cs : List Char) : Nat :=
  cs.foldl (fun n c => n * 10 + (c.toNat - ('0').toNat)) 0

/-- Whitespace trim on a character list (Python `str.strip`, as applied by
the numeric parser). -/
def trimChars (cs : List Char) : List Char :=
  ((cs.dropWhile Char.isWhitespace).reverse.dropWhile Char.isWhitespace).reverse

/-- The numeric-string forms accepted by the model of
`pd.to_numeric(errors="coerce")`: optional sign, then digits with an
optional single decimal point (`"12"`, `"-3.5"`, `".5"`, `"5."`).
Exponent and special float forms are not modelled; no claim uses them. -/
def parseNum (str : String) : Option ℚ :=
  let t := trimChars str.toList
  let (sign, digits) : ℚ × List Char :=
    match t with
    | '-' :: rest => (-1, rest)
    | '+' :: rest => (1, rest)
    | _ => (1, t)
  match splitDotChars digits with
  | [intp] =>
    if intp ≠ [] ∧ intp.all Char.isDigit then some (sign * digitsVal intp) else none
  | [intp, fracp] =>
    if (intp ≠ [] ∨ fracp ≠ []) ∧ intp.all Char.isDigit ∧ fracp.all Char.isDigit then
      some (sign * (digitsVal intp + digitsVal fracp / (10 : ℚ) ^ fracp.length))
    else none
  | _ => none

/-- One cell under `pd.to_numeric(..., errors="coerce")`: numbers pass
through, booleans become 0/1, parseable strings become numbers, and every
other cell degrades to null (never an error). -/
def to_numeric_coerce : Value → Value
  | .num q => .num q
  | .b bo => .num (if bo then 1 else 0)
  | .s str => match parseNum str with
    | some q => .num q
    | none => .null
  | _ => .null

/-- Python `str()` of a cell, as used by `.astype(str)` and by the column
flattening `"_".join(map(str, c))`.  Integral rationals render like Python
ints; the repr of non-integral floats and of container cells is not needed
by any claim and is abstracted. -/
def pyStr : Value → String
  | .s str => str
  | .num q => if q.den = 1 then toString q.num else toString q
  | .b true => "True"
  | .b false => "False"
  | .null => "nan"
  | .list _ => "[object]"
  | .dict _ => "[object]"

/-- `d[c] = d[c].map(f)`-style single-column update on one row. -/
def mapColRow (c : String) (f : Value → Value) (r : Row) : Row :=
  r.map (fun kv => if kv.1 = c then (kv.1, f kv.2) else kv)

/-- Column assignment `d[c] = f(d[c])` on a whole table. -/
def mapCol (c : String) (f : Value → Value) (t : Table) : Table :=
  { cols := t.cols, rows := t.rows.map (mapColRow c f) }

/-- The coercion stage shared by `make_custom_pivot` (runner.py lines
129-135) and `make_default_pivot` (lines 82-85): the value column is made
numeric (unparseable cells to null), then the fixed column `"PRD_DE"` — and
only that column — is stringified. -/
def coerceStep (val : String) (t : Table) : Table :=
  let t1 := if t.cols.contains val then mapCol val to_numeric_coerce t else t
  if t1.cols.contains "PRD_DE" then
    mapCol "PRD_DE" (fun v => Value.s (pyStr v)) t1
  else t1

/-!
## Period-label formatting
-/

/-- `fmt_prd` from `make_default_pivot` (runner.py lines 96-101): inserts a
dot after the first four characters of any label of length at least 6 —
there is no digit test. -/
def fmt_prd (x : String) : String :=
  if 6 ≤ x.length then x.take 4 ++ "." ++ x.drop 4 else x

/-- `fmt_prd2` from `make_custom_pivot` (runner.py lines 144-148): same
reformatting, but only on labels that are all-digit (`x.isdigit()`). -/
def fmt_prd2 (x : String) : String :=
  if 6 ≤ x.length ∧ pyIsdigit x then x.take 4 ++ "." ++ x.drop 4 else x

/-!
## Pivot builder

`pd.pivot_table(index=idx, columns=cols, values=val, aggfunc="first")` with
its defaults: rows with a null grouping key are dropped (`dropna` on the
groupers), the aggregation takes the first non-null value of the group in
input order, group and column keys are sorted ascending, and result columns
whose cells are all null are dropped.  The sort order on heterogeneous keys
is modelled as a total order by constructor rank then component value
(pandas would raise on exotic mixed-type keys; no claim depends on the
order itself).
-/

def valueRank : Value → Nat
  | .null => 0
  | .b _ => 1
  | .num _ => 2
  | .s _ => 3
  | .list _ => 4
  | .dict _ => 5

def Value.le (a c : Value) : Bool :=
  match a, c with
  | .b x, .b y => !x || y
  | .num x, .num y => decide (x ≤ y)
  | .s x, .s y => decide (x ≤ y)
  | x, y => decide (valueRank x ≤ valueRank y)

/-- Lexicographic order on key tuples. -/
def listLeV : List Value → List Value → Bool
  | [], _ => true
  | _ :: _, [] => false
  | a :: as, c :: cs => if a = c then listLeV as cs else Value.le a c

def insertLe {α : Type} (le : α → α → Bool) (x : α) : List α → List α
  | [] => [x]
  | y :: ys => if le x y then x :: y :: ys else y :: insertLe le x ys

/-- Insertion sort (stable, total); stands in for the ascending key sort of
`pivot_table`. -/
def sortByLe {α : Type} (le : α → α → Bool) : List α → List α
  | [] => []
  | x :: xs => insertLe le x (sortByLe le xs)

/-- The tuple of a row's cells at the given key columns. -/
def rowKey (ks : List String) (r : Row) : List Value :=
  ks.map (fun k => getCellA r k)

/-- `aggfunc="first"`: the first non-null numeric value of a group, in
input order (pandas `GroupBy.first` skips nulls). -/
def firstNum (vs : List Value) : Option ℚ :=
  (vs.filterMap (fun v => match v with
    | .num q => some q
    | _ => none)).head?

def optToVal : Option ℚ → Value
  | some q => .num q
  | none => .null

/-- Column-label flattening (runner.py lines 137-141): a MultiIndex (two or
more pivot key columns) is joined with underscores and stripped; a single
key column keeps `str()` of the raw key; an empty `columns` list leaves the
single value column labeled by the value field name. -/
def flattenLabels (cols : List String) (val : String) (cKeys : List (List Value)) :
    List String :=
  if cols.isEmpty then [val]
  else if cols.length = 1 then cKeys.map (fun c => pyStr (c.headD .null))
  else cKeys.map (fun c => (String.intercalate "_" (c.map pyStr)).trim)

/-- A pivot before `reset_index`: index column names, flattened value
column labels, sorted group keys and the cell matrix. -/
structure Pivoted where
  idxCols : List String
  colLabels : List String
  keys : List (List Value)
  cells : List (List Value)
  deriving Repr, DecidableEq

/-- `pv.columns = [f(c) for c in pv.columns]`. -/
def relabel (f : String → String) (p : Pivoted) : Pivoted :=
  { p with colLabels := p.colLabels.map f }

/-- `pv.reset_index()`: index columns first, then the value columns. -/
def resetIndex (p : Pivoted) : Table :=
  { cols := p.idxCols ++ p.colLabels,
    rows := (p.keys.zip p.cells).map (fun kc => p.idxCols.zip kc.1 ++ p.colLabels.zip kc.2) }

def pivotCore (t : Table) (idx cols : List String) (val : String) : Pivoted :=
  let rows0 := t.rows.filter (fun r =>
    !(rowKey idx r).contains Value.null && !(rowKey cols r).contains Value.null)
  let gKeys := sortByLe listLeV (rows0.map (rowKey idx)).eraseDups
  let cKeysAll := sortByLe listLeV (rows0.map (rowKey cols)).eraseDups
  let cellOf : List Value → List Value → Option ℚ := fun g c =>
    firstNum ((rows0.filter (fun r => rowKey idx r == g && rowKey cols r == c)).map
      (fun r => getCellA r val))
  let cKeys := cKeysAll.filter (fun c => gKeys.any (fun g => (cellOf g c).isSome))
  { idxCols := idx,
    colLabels := flattenLabels cols val cKeys,
    keys := gKeys,
    cells := gKeys.map (fun g => cKeys.map (fun c => optToVal (cellOf g c))) }

/-!
## The two pivot entry points of runner.py

Each is embedded as a `_frames` function returning, next to its result, the
final state of the caller's DataFrame object: `make_default_pivot` and
`make_custom_pivot` both start with `d = df.copy()` and write only to `d`,
so the caller's `df` comes back unchanged; the legacy `pivot_table_view`
(below) writes to `df` itself.
-/

inductive PivotError where
  /-- `RuntimeError("Pivot columns missing: ...")`, runner.py line 127,
  carrying the missing column list. -/
  | missingColumns (missing : List Value) : PivotError
  /-- `RuntimeError` for a non-list `pivot.index` / `pivot.columns`,
  runner.py line 122. -/
  | invalidSpec : PivotError
  deriving Repr, DecidableEq

/-- The `pivot` object of a job JSON.  `none` fields are absent keys;
`index` and `columns` hold raw JSON values because the code checks their
list-shape itself. -/
structure PivotCfg where
  index : Option Value := none
  columns : Option Value := none
  values : Option Value := none
  sheet_name : Option String := none
  flatten_columns_year : Bool := false
  deriving Repr, DecidableEq

/-- `pivot_cfg.get("index", [])`. -/
def idxVal (cfg : PivotCfg) : Value := cfg.index.getD (.list [])

/-- `pivot_cfg.get("columns", [])`. -/
def colsVal (cfg : PivotCfg) : Value := cfg.columns.getD (.list [])

/-- `pivot_cfg.get("values", "DT")`. -/
def valVal (cfg : PivotCfg) : Value := cfg.values.getD (.s "DT")

/-- Python `c in df.columns` for a raw spec entry `c`: only a string can
match the string column labels. -/
def memberColsB (v : Value) (cols : List String) : Bool :=
  match v with
  | .s str => cols.contains str
  | _ => false

/-- `need = set(idx + cols + [val])` (runner.py line 124); the set is kept
as a deduplicated list, its iteration order being arbitrary in Python. -/
def needOf (cfg : PivotCfg) : List Value :=
  ((idxVal cfg).asList ++ (colsVal cfg).asList ++ [valVal cfg]).dedup

/-- `missing = [c for c in need if c not in df.columns]` (runner.py line 125). -/
def missingOf (df : Table) (cfg : PivotCfg) : List Value :=
  (needOf cfg).filter (fun c => !memberColsB c df.cols)

/-- `make_custom_pivot` (runner.py lines 104-153), with the final state of
the input `df` as first component. -/
def make_custom_pivot_frames (df : Table) (cfg : PivotCfg) :
    Table × Except PivotError Table :=
  if (idxVal cfg).isList && (colsVal cfg).isList then
    if (missingOf df cfg).isEmpty then
      let d := df
      let d := coerceStep (valVal cfg).asStr d
      let pv := pivotCore d ((idxVal cfg).asList.map Value.asStr)
        ((colsVal cfg).asList.map Value.asStr) (valVal cfg).asStr
      let pv := if cfg.flatten_columns_year then relabel fmt_prd2 pv else pv
      (df, .ok (resetIndex pv))
    else (df, .error (.missingColumns (missingOf df cfg)))
  else (df, .error .invalidSpec)

def make_custom_pivot (df : Table) (cfg : PivotCfg) : Except PivotError Table :=
  (make_custom_pivot_frames df cfg).2

/-- `make_default_pivot` (runner.py lines 70-101): requires the canonical
columns DT, PRD_DE and C1_NM, else no pivot; otherwise coerce on a copy,
pivot C1_NM against PRD_DE and dot-format the period labels with
`fmt_prd`. -/
def make_default_pivot_frames (df : Table) : Table × Option Table :=
  if df.cols.contains "DT" && df.cols.contains "PRD_DE" && df.cols.contains "C1_NM" then
    let d := df
    let d := coerceStep "DT" d
    let pv := pivotCore d ["C1_NM"] ["PRD_DE"] "DT"
    (df, some (resetIndex (relabel fmt_prd pv)))
  else (df, none)

def make_default_pivot (df : Table) : Option Table :=
  (make_default_pivot_frames df).2

/-!
## build_table_view and the export plan
-/

/-- The job fields the reshaping core consumes. -/
structure Job where
  pivot : Option PivotCfg := none
  deriving Repr, DecidableEq

/-- The sheet-name choice of `build_table_view` (runner.py lines 160-162):
`"TABLE_VIEW"` unless the pivot config carries a truthy (non-empty)
`sheet_name`. -/
def sheetNameOf (job : Job) : String :=
  match job.pivot with
  | some cfg =>
    match cfg.sheet_name with
    | some str => if str = "" then "TABLE_VIEW" else str
    | none => "TABLE_VIEW"
  | none => "TABLE_VIEW"

/-- `build_table_view` (runner.py lines 155-171): custom pivot when a pivot
config is present, default pivot otherwise; every pivot-stage exception is
caught and turned into "no secondary view". -/
def build_table_view (df : Table) (job : Job) : Option Table × String :=
  match job.pivot with
  | some cfg =>
    match make_custom_pivot df cfg with
    | .ok pv => (some pv, sheetNameOf job)
    | .error _ => (none, sheetNameOf job)
  | none => (make_default_pivot df, sheetNameOf job)

/-- The sheet plan of `save_excel` (runner.py lines 297-302): the raw table
always goes first under `"RAW"`; a pivot, when present, follows under its
name truncated to Excel's 31-character limit. -/
def save_sheets (raw : Table) (pv : Option Table) (sheet : String) :
    List (String × Table) :=
  ("RAW", raw) :: (match pv with
    | some p => [(sheet.take 31, p)]
    | none => [])

/-- The sheets a job writes for a fetched table: the tail of
`run_kosis_job` / `run_data_go_kr_job` composed with `save_excel`. -/
def sheetsFor (df : Table) (job : Job) : List (String × Table) :=
  let view := build_table_view df job
  save_sheets df view.1 view.2

/-!
## The legacy pivot of trash/kosis_batch_export.py

`pivot_table_view` (lines 69-105) coerces `df["DT"]` and `df["PRD_DE"]` in
place — there is no `.copy()` — then pivots and derives the month-over-month
change sheet with `pivot.set_index(index_col).diff(axis=1).reset_index()`.
-/

/-- Cell subtraction of `DataFrame.diff(axis=1)`: current minus previous,
null-propagating. -/
def subV : Value → Value → Value
  | .num x, .num y => .num (y - x)
  | _, _ => .null

/-- `diff(axis=1)` across one row of value cells: the first column has no
predecessor and yields null. -/
def diffCellsV (cs : List Value) : List Value :=
  match cs with
  | [] => []
  | _ :: tail => .null :: (cs.zip tail).map (fun ab => subV ab.1 ab.2)

/-- `pivot.set_index(index_col).diff(axis=1).reset_index()` for a pivot
table whose first column is the index column (always the case for the
output of `reset_index`): the index cell passes through, the value cells
are replaced by successive differences. -/
def pivot_change_of (pv : Table) : Table :=
  { cols := pv.cols,
    rows := pv.rows.map (fun r =>
      match r with
      | [] => []
      | k :: cells =>
        k :: (cells.map Prod.fst).zip (diffCellsV (cells.map Prod.snd))) }

/-- `pivot_table_view(df)` with the final state of the caller's `df` as
first component: the two column coercions hit `df` itself before the
index column is even chosen. -/
def pivot_table_view_frames (df : Table) : Table × Option (Table × Table) :=
  let df := if df.cols.contains "DT" then mapCol "DT" to_numeric_coerce df else df
  let df := if df.cols.contains "PRD_DE" then
    mapCol "PRD_DE" (fun v => Value.s (pyStr v)) df else df
  let ic := if df.cols.contains "C1_NM" then some "C1_NM"
    else if df.cols.contains "C1" then some "C1" else none
  match ic with
  | none => (df, none)
  | some idxc =>
    let pv := resetIndex (relabel fmt_prd (pivotCore df [idxc] ["PRD_DE"] "DT"))
    (df, some (pv, pivot_change_of pv))

def pivot_table_view (df : Table) : Option (Table × Table) :=
  (pivot_table_view_frames df).2

deriving instance DecidableEq for Except

/-!
## Helper lemmas
-/

theorem lookup_mapColRow_self (c : String) (f : Value → Value) (r : Row) :
    (mapColRow c f r).lookup c = (r.lookup c).map f := by
  induction r with
  | nil => rfl
  | cons kv rest ih =>
    obtain ⟨k, v⟩ := kv
    show List.lookup c ((if k = c then (k, f v) else (k, v)) :: mapColRow c f rest)
        = Option.map f (List.lookup c ((k, v) :: rest))
    by_cases hk : k = c
    · subst hk
      rw [if_pos rfl]
      simp [List.lookup_cons]
    · rw [if_neg hk]
      have hck : c ≠ k := fun h => hk h.symm
      simp [List.lookup_cons, beq_false_of_ne hck]
      exact ih

theorem lookup_mapColRow_ne (c d : String) (f : Value → Value) (r : Row)
    (hne : d ≠ c) : (mapColRow c f r).lookup d = r.lookup d := by
  induction r with
  | nil => rfl
  | cons kv rest ih =>
    obtain ⟨k, v⟩ := kv
    show List.lookup d ((if k = c then (k, f v) else (k, v)) :: mapColRow c f rest)
        = List.lookup d ((k, v) :: rest)
    by_cases hk : k = c
    · subst hk
      rw [if_pos rfl]
      simp [List.lookup_cons, beq_false_of_ne hne]
      exact ih
    · rw [if_neg hk]
      by_cases hd : d = k
      · subst hd
        simp [List.lookup_cons]
      · simp [List.lookup_cons, beq_false_of_ne hd]
        exact ih

theorem coerceStep_rows (val : String) (t : Table) :
    (coerceStep val t).rows = t.rows.map (fun r =>
      let r1 := if t.cols.contains val then mapColRow val to_numeric_coerce r else r
      if t.cols.contains "PRD_DE" then
        mapColRow "PRD_DE" (fun v => Value.s (pyStr v)) r1
      else r1) := by
  unfold coerceStep mapCol
  by_cases h1 : val ∈ t.cols <;> by_cases h2 : "PRD_DE" ∈ t.cols <;>
    simp [h1, h2, List.map_map, Function.comp]

theorem coerceStep_cols (val : String) (t : Table) :
    (coerceStep val t).cols = t.cols := by
  unfold coerceStep mapCol
  by_cases h1 : val ∈ t.cols <;> by_cases h2 : "PRD_DE" ∈ t.cols <;>
    simp [h1, h2]

/-- The value column after the coercion stage, cell by cell: exactly
`to_numeric_coerce` of the original cell. -/
theorem coerceStep_lookup_val (t : Table) (val : String)
    (hval : t.cols.contains val = true) (hne : val ≠ "PRD_DE") (i : Nat) :
    ((coerceStep val t).rows[i]?).map (fun r => r.lookup val) =
      (t.rows[i]?).map (fun r => (r.lookup val).map to_numeric_coerce) := by
  rw [coerceStep_rows, List.getElem?_map]
  cases hr : t.rows[i]? with
  | none => rfl
  | some r =>
    simp only [Option.map_some', hval, if_pos]
    by_cases h2 : t.cols.contains "PRD_DE"
    · simp only [h2, if_pos]
      rw [lookup_mapColRow_ne _ _ _ _ hne, lookup_mapColRow_self]
    · simp only [h2, if_neg, Bool.false_eq_true, ite_false]
      rw [lookup_mapColRow_self]

/-- The PRD_DE column after the coercion stage, cell by cell: the string
form of the original cell. -/
theorem coerceStep_lookup_prd (t : Table) (val : String)
    (hprd : t.cols.contains "PRD_DE" = true) (hne : val ≠ "PRD_DE") (i : Nat) :
    ((coerceStep val t).rows[i]?).map (fun r => r.lookup "PRD_DE") =
      (t.rows[i]?).map (fun r =>
        (r.lookup "PRD_DE").map (fun v => Value.s (pyStr v))) := by
  rw [coerceStep_rows, List.getElem?_map]
  cases hr : t.rows[i]? with
  | none => rfl
  | some r =>
    simp only [Option.map_some', hprd, if_pos]
    by_cases h1 : t.cols.contains val
    · simp only [h1, if_pos]
      rw [lookup_mapColRow_self, lookup_mapColRow_ne _ _ _ _ (Ne.symm hne)]
    · simp only [h1, Bool.false_eq_true, ite_false]
      rw [lookup_mapColRow_self]

/-- Any column other than the value column and PRD_DE is untouched by the
coercion stage. -/
theorem coerceStep_lookup_other (t : Table) (val c : String)
    (hc1 : c ≠ "PRD_DE") (hc2 : c ≠ val) (i : Nat) :
    ((coerceStep val t).rows[i]?).map (fun r => r.lookup c) =
      (t.rows[i]?).map (fun r => r.lookup c) := by
  rw [coerceStep_rows, List.getElem?_map]
  cases hr : t.rows[i]? with
  | none => rfl
  | some r =>
    simp only [Option.map_some']
    by_cases h1 : val ∈ t.cols <;> by_cases h2 : "PRD_DE" ∈ t.cols <;>
      simp [h1, h2, lookup_mapColRow_ne, hc1, hc2]

/-!
## Claims
-/

/-- C1 (counterexample): the default pivot's label normalization `fmt_prd`
has no digit test, so a label already in YYYY.MM shape is reformatted again
(not a no-op), and a 7-character non-numeric code is reformatted too —
refuting the claim that exactly the 6-or-more-digit numerals are reformatted
and everything else passes through. -/
theorem claim_C1_counterexample :
    fmt_prd "2025.11" = "2025..11" ∧ fmt_prd "ABCDEFG" = "ABCD.EFG"
    ∧ ¬fmt_prd "2025.11" = "2025.11" := by
  refine ⟨by decide, by decide, by decide⟩

/-- C1 (amended): the custom pivot's `fmt_prd2` reformats exactly the
labels that are 6-or-more-digit numerals (inserting a dot after the first
4 digits) and leaves every other label — 4-digit years, non-numeric codes,
labels already in YYYY.MM shape — unchanged; the default pivot's `fmt_prd`
instead dots every label of length at least 6, digits or not. -/
theorem claim_C1 :
    (∀ x : String, 6 ≤ x.length ∧ pyIsdigit x = true →
      fmt_prd2 x = x.take 4 ++ "." ++ x.drop 4)
    ∧ (∀ x : String, ¬(6 ≤ x.length ∧ pyIsdigit x = true) → fmt_prd2 x = x)
    ∧ (∀ x : String, 6 ≤ x.length → fmt_prd x = x.take 4 ++ "." ++ x.drop 4)
    ∧ (∀ x : String, x.length < 6 → fmt_prd x = x)
    ∧ fmt_prd2 "202511" = "2025.11" ∧ fmt_prd2 "2023" = "2023"
    ∧ fmt_prd2 "2025.11" = "2025.11" ∧ fmt_prd2 "ABCDEFG" = "ABCDEFG" := by
  refine ⟨?_, ?_, ?_, ?_, by decide, by decide, by decide, by decide⟩
  · intro x h
    simp only [fmt_prd2, h.1, h.2, and_true, if_pos]
  · intro x h
    simp only [fmt_prd2, if_neg h]
  · intro x h
    simp only [fmt_prd, if_pos h]
  · intro x h
    simp only [fmt_prd, if_neg (by omega : ¬6 ≤ x.length)]

theorem claim_C1_witness :
    fmt_prd2 "209912" = "2099.12" ∧ fmt_prd2 "X2023" = "X2023"
    ∧ fmt_prd "999999" = "9999.99" ∧ fmt_prd "12345" = "12345" := by
  refine ⟨?_, ?_, ?_, ?_⟩
  · exact claim_C1.1 "209912" (by decide)
  · exact claim_C1.2.1 "X2023" (by decide)
  · exact claim_C1.2.2.1 "999999" (by decide)
  · exact claim_C1.2.2.2.1 "12345" (by decide)

/-- C2 (code bug): CPython's `str.isdigit` accepts digit characters such
as '²' that `int()` then rejects, so `deep_get` raises an uncaught
`ValueError` when such a segment meets a sequence node (runner.py lines
44-45) — the failing input below — contrary to the never-raises contract.
On every path whose isdigit-true segments are decimal, resolution is total,
and the enumerated cases — a null node at any depth, an absent map key, a
non-digit segment on a sequence, an out-of-range index, a scalar node with
segments remaining — all yield null rather than an error. -/
theorem claim_C2 :
    deep_get (Value.list [Value.num 10, Value.num 20]) "²" =
      Except.error "ValueError"
    ∧ pyIsdigit "²" = true ∧ pyIsdecimal "²" = false
    ∧ (∀ (obj : Value) (path : String),
        (∀ part ∈ splitPath path, pyIsdigit part = true → pyIsdecimal part = true) →
        ∃ v, deep_get obj path = Except.ok v)
    ∧ (∀ path : String, deep_get Value.null path = Except.ok Value.null)
    ∧ (∀ parts : List String, deep_get_go Value.null parts = Except.ok Value.null)
    ∧ (∀ (fs : List (String × Value)) (part : String) (rest : List String),
        fs.lookup part = none →
        deep_get_go (Value.dict fs) (part :: rest) = Except.ok Value.null)
    ∧ (∀ (xs : List Value) (part : String) (rest : List String),
        pyIsdigit part = false →
        deep_get_go (Value.list xs) (part :: rest) = Except.ok Value.null)
    ∧ (∀ (xs : List Value) (part : String) (rest : List String),
        pyIsdecimal part = true → xs.length ≤ pyInt part →
        deep_get_go (Value.list xs) (part :: rest) = Except.ok Value.null)
    ∧ (∀ (cur : Value) (part : String) (rest : List String),
        cur.isScalar = true →
        deep_get_go cur (part :: rest) = Except.ok Value.null) := by
  refine ⟨by decide, by decide, by decide, ?_, ?_, deep_get_go_null, ?_, ?_, ?_, ?_⟩
  · intro obj path hsafe
    unfold deep_get
    by_cases h : path = ""
    · exact ⟨obj, by simp [h]⟩
    · simpa [h] using deep_get_go_total (splitPath path) hsafe obj
  · intro path
    unfold deep_get
    by_cases h : path = ""
    · simp [h]
    · simp [h, deep_get_go_null]
  · intro fs part rest h
    show deep_get_go ((fs.lookup part).getD .null) rest = Except.ok Value.null
    rw [h]
    exact deep_get_go_null rest
  · intro xs part rest h
    simp [deep_get_go, h]
  · intro xs part rest h hle
    simp [deep_get_go, pyIsdigit_of_decimal part h, pyIntE, h, Except.bind,
      Nat.not_lt.mpr hle, deep_get_go_null]
  · intro cur part rest h
    cases cur <;> simp_all [Value.isScalar] <;> rfl

theorem claim_C2_witness :
    (∃ v, deep_get (Value.dict [("a", Value.num 1)]) "a.b.c" = Except.ok v)
    ∧ deep_get Value.null "x.y" = Except.ok Value.null
    ∧ deep_get_go (Value.dict [("b", Value.num 1)]) ["a"] = Except.ok Value.null
    ∧ deep_get_go (Value.list [Value.num 1]) ["x", "a"] = Except.ok Value.null
    ∧ deep_get_go (Value.list [Value.num 1]) ["5", "a"] = Except.ok Value.null
    ∧ deep_get_go (Value.s "leaf") ["a"] = Except.ok Value.null := by
  refine ⟨?_, ?_, ?_, ?_, ?_, ?_⟩
  · exact claim_C2.2.2.2.1 _ _ (by decide)
  · exact claim_C2.2.2.2.2.1 _
  · exact claim_C2.2.2.2.2.2.2.1 _ _ _ (by decide)
  · exact claim_C2.2.2.2.2.2.2.2.1 _ _ _ (by decide)
  · exact claim_C2.2.2.2.2.2.2.2.2.1 _ _ _ (by decide) (by decide)
  · exact claim_C2.2.2.2.2.2.2.2.2.2 _ _ _ (by decide)

/-- C4: record normalization of an empty item sequence is a hard
`EmptyInputError` on both provider paths — an empty table is never
silently produced. -/
theorem claim_C4 :
    toTable [] = Except.error JobError.emptyInput
    ∧ kosis_table [] = Except.error JobError.emptyInput
    ∧ ∀ t : Table, ¬toTable ([] : List Value) = Except.ok t := by
  refine ⟨rfl, by decide, ?_⟩
  intro t h
  simp [toTable] at h

/-- C5: the change sheet `pivot.set_index(...).diff(axis=1).reset_index()`
keeps the column set and the index cell of every row, gives the first value
column a null change cell (no predecessor), fills each later cell with
current minus previous, and propagates a null operand to a null result —
never a fabricated zero. -/
theorem claim_C5 :
    (∀ pv : Table, (pivot_change_of pv).cols = pv.cols)
    ∧ (∀ pv : Table,
        (pivot_change_of pv).rows.map (fun r => r.head?) =
          pv.rows.map (fun r => r.head?))
    ∧ (∀ (k : String × Value) (la lb lc : String) (a b c : Option ℚ),
        pivot_change_of
          { cols := [k.1, la, lb, lc],
            rows := [[k, (la, optToVal a), (lb, optToVal b), (lc, optToVal c)]] } =
          { cols := [k.1, la, lb, lc],
            rows := [[k, (la, Value.null),
                      (lb, optToVal (a.bind fun x => b.map fun y => y - x)),
                      (lc, optToVal (b.bind fun x => c.map fun y => y - x))]] })
    ∧ (∀ v : Value, subV Value.null v = Value.null ∧ subV v Value.null = Value.null) := by
  refine ⟨fun pv => rfl, ?_, ?_, ?_⟩
  · intro pv
    simp only [pivot_change_of, List.map_map]
    refine List.map_congr_left ?_
    intro r _
    cases r <;> rfl
  · intro k la lb lc a b c
    cases a <;> cases b <;> cases c <;> rfl
  · intro v
    cases v <;> exact ⟨rfl, rfl⟩

/-- Shared: the missing-columns exit of `make_custom_pivot`. -/
theorem make_custom_pivot_missing_eq (df : Table) (cfg : PivotCfg)
    (hIdx : (idxVal cfg).isList = true) (hCols : (colsVal cfg).isList = true)
    (hMiss : missingOf df cfg ≠ []) :
    make_custom_pivot df cfg =
      Except.error (PivotError.missingColumns (missingOf df cfg)) := by
  have hne : (missingOf df cfg).isEmpty = false := by
    cases h : missingOf df cfg with
    | nil => exact absurd h hMiss
    | cons a l => rfl
  simp [make_custom_pivot, make_custom_pivot_frames, hIdx, hCols, hne]

/-- Shared: membership in the reported missing-column list. -/
theorem mem_missingOf (df : Table) (cfg : PivotCfg) (c : Value) :
    c ∈ missingOf df cfg ↔
      c ∈ (idxVal cfg).asList ++ (colsVal cfg).asList ++ [valVal cfg]
      ∧ memberColsB c df.cols = false := by
  simp [missingOf, needOf, List.mem_filter, List.mem_dedup]

/-- C3: a pivot spec referencing absent columns makes `make_custom_pivot`
fail with the missing-columns error, whose list holds exactly the
referenced-but-absent entries; `build_table_view` swallows the failure and
the job's sheet plan still opens with the raw table under "RAW". -/
theorem claim_C3 (df : Table) (cfg : PivotCfg)
    (hIdx : (idxVal cfg).isList = true) (hCols : (colsVal cfg).isList = true)
    (hMiss : missingOf df cfg ≠ []) :
    make_custom_pivot df cfg =
      Except.error (PivotError.missingColumns (missingOf df cfg))
    ∧ (∀ c : Value, c ∈ missingOf df cfg ↔
        c ∈ (idxVal cfg).asList ++ (colsVal cfg).asList ++ [valVal cfg]
        ∧ memberColsB c df.cols = false)
    ∧ ∀ job : Job, job.pivot = some cfg →
        build_table_view df job = (none, sheetNameOf job)
        ∧ (sheetsFor df job).head? = some ("RAW", df) := by
  have h1 := make_custom_pivot_missing_eq df cfg hIdx hCols hMiss
  refine ⟨h1, fun c => mem_missingOf df cfg c, ?_⟩
  intro job hjob
  constructor
  · simp [build_table_view, hjob, h1]
  · simp [sheetsFor, save_sheets, build_table_view, hjob, h1]

/-- Scenario E input: a KOSIS-shaped table and a spec whose value column
`"NOPE"` does not exist. -/
def dfScenE : Table :=
  { cols := ["C1_NM", "PRD_DE", "DT"],
    rows := [[("C1_NM", .s "Seoul"), ("PRD_DE", .s "202501"), ("DT", .s "10")]] }

def cfgScenE : PivotCfg :=
  { index := some (.list [.s "C1_NM"]), columns := some (.list [.s "PRD_DE"]),
    values := some (.s "NOPE") }

def jobScenE : Job := { pivot := some cfgScenE }

theorem claim_C3_witness :
    make_custom_pivot dfScenE cfgScenE =
      Except.error (PivotError.missingColumns [Value.s "NOPE"])
    ∧ Value.s "NOPE" ∈ missingOf dfScenE cfgScenE
    ∧ build_table_view dfScenE jobScenE = (none, "TABLE_VIEW")
    ∧ (sheetsFor dfScenE jobScenE).head? = some ("RAW", dfScenE) := by
  have h := claim_C3 dfScenE cfgScenE (by decide) (by decide) (by decide)
  refine ⟨h.1.trans (by decide), (h.2.1 (Value.s "NOPE")).mpr (by decide), ?_, ?_⟩
  · exact ((h.2.2 jobScenE rfl).1).trans (by decide)
  · exact (h.2.2 jobScenE rfl).2

def Value.isStr : Value → Bool
  | .s _ => true
  | _ => false

/-- Modelled from the spec's words for C6 ("coerce every `columns` entry to
its string form"): after the coercion stage, every column listed in the
spec's `columns` holds only string cells. -/
def spec_all_columns_stringified (df : Table) (cfg : PivotCfg) : Bool :=
  (colsVal cfg).asList.all (fun c =>
    (coerceStep (valVal cfg).asStr df).rows.all (fun r => (getCellA r c.asStr).isStr))

/-- C6 input: the pivot-key column "X" holds a number, and is not named
PRD_DE. -/
def dfC6 : Table :=
  { cols := ["I", "X", "V"],
    rows := [[("I", .s "a"), ("X", .num 1), ("V", .s "5")]] }

def cfgC6 : PivotCfg :=
  { index := some (.list [.s "I"]), columns := some (.list [.s "X"]),
    values := some (.s "V") }

/-- C6 (counterexample): the coercion stage stringifies only the fixed
column "PRD_DE"; a `columns` entry named "X" keeps its numeric cell, so
"every `columns` entry is coerced to its string form" fails. -/
theorem claim_C6_counterexample :
    spec_all_columns_stringified dfC6 cfgC6 = false
    ∧ getCellA ((coerceStep (valVal cfgC6).asStr dfC6).rows.headD []) "X" =
        Value.num 1 := by
  exact ⟨by decide, by decide⟩

/-- C6 (amended): before grouping, the pivot coercion stage stringifies
exactly the fixed column "PRD_DE" (cell by cell, `str()` of the value),
and leaves every column other than PRD_DE and the value column untouched,
whatever the spec's `columns` list says. -/
theorem claim_C6 (t : Table) (val : String)
    (hprd : t.cols.contains "PRD_DE" = true) (hne : val ≠ "PRD_DE") :
    (∀ i : Nat, ((coerceStep val t).rows[i]?).map (fun r => r.lookup "PRD_DE") =
      (t.rows[i]?).map (fun r =>
        (r.lookup "PRD_DE").map (fun v => Value.s (pyStr v))))
    ∧ ∀ c, c ≠ "PRD_DE" → c ≠ val →
      ∀ i : Nat, ((coerceStep val t).rows[i]?).map (fun r => r.lookup c) =
        (t.rows[i]?).map (fun r => r.lookup c) :=
  ⟨coerceStep_lookup_prd t val hprd hne,
   fun c h1 h2 i => coerceStep_lookup_other t val c h1 h2 i⟩

def dfC6w : Table :=
  { cols := ["PRD_DE", "X", "V"],
    rows := [[("PRD_DE", .num 202511), ("X", .num 7), ("V", .s "1")]] }

theorem claim_C6_witness :
    ((coerceStep "V" dfC6w).rows[0]?).map (fun r => r.lookup "PRD_DE") =
      some (some (Value.s "202511"))
    ∧ ((coerceStep "V" dfC6w).rows[0]?).map (fun r => r.lookup "X") =
      some (some (Value.num 7)) := by
  have h := claim_C6 dfC6w "V" (by decide) (by decide)
  constructor
  · exact (h.1 0).trans (by decide)
  · exact (h.2 "X" (by decide) (by decide) 0).trans (by decide)

/-- Modelled from the spec's words for C7: whenever any item of the input
sequence is not a map, the whole sequence is wrapped as single-column
records under "value". -/
def spec_wrap_on_any_nonmap (items : List Value) : Prop :=
  (∃ it ∈ items, it.isDict = false) → toTable items = Except.ok (wrapTable items)

/-- C7 (counterexample): with a map first and a non-map second, the code
takes the list-of-dicts branch (the check looks only at `items[0]`) and the
frame construction fails — the sequence is not wrapped under "value". -/
theorem claim_C7_counterexample :
    ¬spec_wrap_on_any_nonmap [Value.dict [("a", Value.num 1)], Value.s "x"]
    ∧ toTable [Value.dict [("a", Value.num 1)], Value.s "x"] =
        Except.error JobError.frameError := by
  refine ⟨?_, by decide⟩
  intro h
  have hx := h ⟨Value.s "x", by decide, rfl⟩
  exact absurd hx (by decide)

/-- C7 (amended): the wrap decision looks only at the first item: a non-map
first item wraps the whole sequence under the fixed column "value" in input
order; a map first item selects the list-of-dicts frame, which produces one
record per item when every item is a map. -/
theorem claim_C7 (first : Value) (rest : List Value) :
    (first.isDict = false →
      toTable (first :: rest) = Except.ok (wrapTable (first :: rest)))
    ∧ (first.isDict = true → (∀ it ∈ first :: rest, it.isDict = true) →
      toTable (first :: rest) = Except.ok (directTable (first :: rest)))
    ∧ (wrapTable (first :: rest)).cols = ["value"]
    ∧ (wrapTable (first :: rest)).rows =
        (first :: rest).map (fun v => [("value", v)]) := by
  refine ⟨?_, ?_, rfl, rfl⟩
  · intro h
    simp [toTable, h]
  · intro h hall
    have hAll : (first :: rest).all Value.isDict = true := List.all_eq_true.mpr hall
    simp [toTable, h, pdDataFrame, hAll]

theorem claim_C7_witness :
    toTable [Value.s "x", Value.num 2] =
      Except.ok { cols := ["value"],
                  rows := [[("value", Value.s "x")], [("value", Value.num 2)]] }
    ∧ toTable [Value.dict [("a", Value.num 1)]] =
        Except.ok (directTable [Value.dict [("a", Value.num 1)]]) := by
  constructor
  · exact ((claim_C7 (Value.s "x") [Value.num 2]).1 (by decide)).trans (by decide)
  · exact (claim_C7 (Value.dict [("a", Value.num 1)]) []).2.1 (by decide) (by decide)

/-- C8: with a list-shaped spec whose columns all exist, `make_custom_pivot`
always returns a pivot — whatever the cells hold; the numeric coercion is
total, sending every unparseable cell to null and everything else to a
number, and the value column after the coercion stage is exactly
`to_numeric_coerce` of the original cells. -/
theorem claim_C8 :
    (∀ (df : Table) (cfg : PivotCfg),
      (idxVal cfg).isList = true → (colsVal cfg).isList = true →
      missingOf df cfg = [] → ∃ pv, make_custom_pivot df cfg = Except.ok pv)
    ∧ (∀ str : String, parseNum str = none →
        to_numeric_coerce (Value.s str) = Value.null)
    ∧ (∀ v : Value, to_numeric_coerce v = Value.null
        ∨ ∃ q, to_numeric_coerce v = Value.num q)
    ∧ (∀ vs : List Value, (∀ v ∈ vs, to_numeric_coerce v = Value.null) →
        optToVal (firstNum (vs.map to_numeric_coerce)) = Value.null)
    ∧ (∀ (t : Table) (val : String),
        t.cols.contains val = true → val ≠ "PRD_DE" →
        ∀ i : Nat, ((coerceStep val t).rows[i]?).map (fun r => r.lookup val) =
          (t.rows[i]?).map (fun r => (r.lookup val).map to_numeric_coerce)) := by
  refine ⟨?_, ?_, ?_, ?_, fun t val h1 h2 i => coerceStep_lookup_val t val h1 h2 i⟩
  · intro df cfg hIdx hCols hMiss
    cases h : make_custom_pivot df cfg with
    | ok pv => exact ⟨pv, rfl⟩
    | error e =>
      exfalso
      simp [make_custom_pivot, make_custom_pivot_frames, hIdx, hCols, hMiss] at h
  · intro str h
    simp [to_numeric_coerce, h]
  · intro v
    cases v with
    | s str =>
      cases h : parseNum str with
      | none => exact .inl (by simp [to_numeric_coerce, h])
      | some q => exact .inr ⟨q, by simp [to_numeric_coerce, h]⟩
    | num q => exact .inr ⟨q, rfl⟩
    | b bo => exact .inr ⟨if bo then 1 else 0, rfl⟩
    | null => exact .inl rfl
    | list xs => exact .inl rfl
    | dict fs => exact .inl rfl
  · intro vs h
    have hnil : List.filterMap
        (fun v => match v with | Value.num q => some q | _ => none)
        (vs.map to_numeric_coerce) = [] := by
      rw [List.filterMap_map, List.filterMap_eq_nil_iff]
      intro a ha
      simp [h a ha]
    simp [firstNum, hnil, optToVal]

/-- C8 input: the value column holds the unparseable cell "abc". -/
def dfC8 : Table :=
  { cols := ["C1_NM", "PRD_DE", "DT"],
    rows := [[("C1_NM", .s "Seoul"), ("PRD_DE", .s "202501"), ("DT", .s "abc")]] }

def cfgC8 : PivotCfg :=
  { index := some (.list [.s "C1_NM"]), columns := some (.list [.s "PRD_DE"]),
    values := some (.s "DT") }

theorem claim_C8_witness :
    (∃ pv, make_custom_pivot dfC8 cfgC8 = Except.ok pv)
    ∧ to_numeric_coerce (Value.s "abc") = Value.null
    ∧ optToVal (firstNum ([Value.s "abc"].map to_numeric_coerce)) = Value.null
    ∧ ((coerceStep "DT" dfC8).rows[0]?).map (fun r => r.lookup "DT") =
        some (some Value.null) := by
  refine ⟨claim_C8.1 dfC8 cfgC8 (by decide) (by decide) (by decide),
    claim_C8.2.1 "abc" (by decide), ?_, ?_⟩
  · exact claim_C8.2.2.2.1 [Value.s "abc"] (by decide)
  · exact (claim_C8.2.2.2.2 dfC8 "DT" (by decide) (by decide) 0).trans (by decide)

/-- C9 input: the legacy pivot gets a table whose DT cell cannot be parsed
as a number. -/
def dfC9 : Table :=
  { cols := ["C1_NM", "PRD_DE", "DT"],
    rows := [[("C1_NM", .s "Seoul"), ("PRD_DE", .s "202501"), ("DT", .s "abc")]] }

/-- C9 (counterexample): the legacy `pivot_table_view` coerces the caller's
DataFrame in place — after the call the input's DT cell has become null (and
PRD_DE a fresh string object), so pivot building is not free of effects on
its input there. -/
theorem claim_C9_counterexample :
    ¬(pivot_table_view_frames dfC9).1 = dfC9
    ∧ ((pivot_table_view_frames dfC9).1.rows.headD []).lookup "DT" =
        some Value.null
    ∧ (dfC9.rows.headD []).lookup "DT" = some (Value.s "abc") := by
  exact ⟨by decide, by decide, by decide⟩

/-- C9 (amended): the runner.py pivot builders copy their input before the
column coercions, so `make_custom_pivot` and `make_default_pivot` leave the
source table unchanged; only the legacy `pivot_table_view` of
trash/kosis_batch_export.py mutates its input. -/
theorem claim_C9 :
    (∀ (df : Table) (cfg : PivotCfg), (make_custom_pivot_frames df cfg).1 = df)
    ∧ ∀ df : Table, (make_default_pivot_frames df).1 = df := by
  constructor
  · intro df cfg
    unfold make_custom_pivot_frames
    split
    · split <;> rfl
    · rfl
  · intro df
    unfold make_default_pivot_frames
    split <;> rfl

/-- Shared: `make_custom_pivot` reads its spec only through the four
accessors, so two specs agreeing on them behave identically. -/
theorem make_custom_pivot_congr (df : Table) (cfg cfg' : PivotCfg)
    (h1 : idxVal cfg = idxVal cfg') (h2 : colsVal cfg = colsVal cfg')
    (h3 : valVal cfg = valVal cfg')
    (h4 : cfg.flatten_columns_year = cfg'.flatten_columns_year) :
    make_custom_pivot df cfg = make_custom_pivot df cfg' := by
  unfold make_custom_pivot make_custom_pivot_frames missingOf needOf
  rw [h1, h2, h3, h4]

/-- C10: a custom spec without a `values` field is not an invalid-spec
failure: the value column silently defaults to "DT", the behavior matching
a spec with `values = "DT"` exactly; when "DT" is then absent from the
table, the missing-columns validation reports the defaulted name. -/
theorem claim_C10 (df : Table) (cfg : PivotCfg) (hv : cfg.values = none) :
    make_custom_pivot df cfg =
      make_custom_pivot df { cfg with values := some (Value.s "DT") }
    ∧ ((idxVal cfg).isList = true → (colsVal cfg).isList = true →
        df.cols.contains "DT" = false →
        make_custom_pivot df cfg =
          Except.error (PivotError.missingColumns (missingOf df cfg))
        ∧ Value.s "DT" ∈ missingOf df cfg) := by
  have hval : valVal cfg = Value.s "DT" := by simp [valVal, hv]
  constructor
  · exact make_custom_pivot_congr df cfg _ rfl rfl (by simp [valVal, hv]) rfl
  · intro hIdx hCols hDT
    have hmem : Value.s "DT" ∈ missingOf df cfg := by
      refine (mem_missingOf df cfg _).mpr ⟨?_, ?_⟩
      · simp [hval]
      · simp only [memberColsB]
        exact hDT
    have hne : missingOf df cfg ≠ [] := by
      intro h
      rw [h] at hmem
      exact absurd hmem (List.not_mem_nil _)
    exact ⟨make_custom_pivot_missing_eq df cfg hIdx hCols hne, hmem⟩

def dfC10 : Table := { cols := ["I"], rows := [[("I", .s "a")]] }

def cfgC10 : PivotCfg := { index := some (.list [.s "I"]), columns := some (.list []) }

theorem claim_C10_witness :
    make_custom_pivot dfC10 cfgC10 =
      make_custom_pivot dfC10 { cfgC10 with values := some (Value.s "DT") }
    ∧ Value.s "DT" ∈ missingOf dfC10 cfgC10 := by
  have h := claim_C10 dfC10 cfgC10 rfl
  exact ⟨h.1, (h.2 (by decide) (by decide) (by decide)).2⟩
